import Mathlib

/-!
Verification development for the `regex-wysiwyg` terminal application
(`src/main.rs`).  The program keeps an editor state of three text buffers
(source, pattern, replacement), a mode, an output and a status line.  Its
transform engine (`App::apply_transform`) derives the output from the three
buffers via the Rust `regex` crate; its event loop (`run_app`) routes key
events to the buffers and re-runs the engine after every processed event;
`App::suggest_ai` consults an external command and feeds a cleaned pattern
suggestion back into the pattern buffer.

The Rust `regex` crate is an external dependency; it is modelled here by an
executable regular-expression engine over `List Char` with the crate's
documented semantics on the modelled subset: leftmost-first (Perl-like)
matching, greedy quantifiers, non-overlapping iteration that advances one
character past an empty match, and `$`-group expansion in replacement
strings.  The modelled pattern syntax is the subset used by this
repository's data: literals, `.` (any char except newline), character
classes with ranges and negation, alternation `|`, the quantifiers `*`,
`+`, `?`, and common escapes.  Constructs outside the subset (anchors,
capture groups, brace repetitions, lazy quantifiers) are rejected by the
modelled compiler rather than given approximate semantics; diagnostic
message texts are modelled, not byte-identical to the crate's.  All
definitions are executable (fuel-based where recursion is not structural,
with fuel bounds that are generous by construction) so that concrete
scenarios reduce inside the kernel.
-/

/-- Abstract syntax of the modelled regular expressions.  `cls neg rs`
matches one character inside (or, when `neg` is true, outside) the union
of the closed ranges `rs`.  `+` and `?` are desugared by the parser. -/
inductive Regex where
  | emptyR : Regex
  | lit : Char → Regex
  | anyC : Regex
  | cls : Bool → List (Char × Char) → Regex
  | cat : Regex → Regex → Regex
  | alt : Regex → Regex → Regex
  | star : Regex → Regex
deriving Repr, DecidableEq

/-- Structural size of a regex, used to bound the matcher's fuel. -/
def Regex.size : Regex → Nat
  | .cat a b => a.size + b.size + 1
  | .alt a b => a.size + b.size + 1
  | .star a => a.size + 1
  | _ => 1

/-- Membership of a character in a union of closed character ranges. -/
def charInRanges (c : Char) (rs : List (Char × Char)) : Bool :=
  rs.any (fun q => decide (q.1 ≤ c) && decide (c ≤ q.2))

/-- Backtracking matcher.  `matchListF f r s` returns the list of suffixes
of `s` left over after `r` matches a prefix of `s`, in the priority order
of a leftmost-first backtracking engine: greedy quantifiers, left
alternative first.  The head of the list is the match the engine reports.
`f` is fuel; with the generous fuel supplied by `matchList` the
computation never bottoms out. -/
def matchListF : Nat → Regex → List Char → List (List Char)
  | 0, _, _ => []
  | f + 1, r, s =>
    match r with
    | .emptyR => [s]
    | .lit c =>
      match s with
      | [] => []
      | x :: xs => if x = c then [xs] else []
    | .anyC =>
      match s with
      | [] => []
      | x :: xs => if x = '\n' then [] else [xs]
    | .cls neg rs =>
      match s with
      | [] => []
      | x :: xs => if charInRanges x rs = !neg then [xs] else []
    | .cat r1 r2 => ((matchListF f r1 s).map (fun t => matchListF f r2 t)).flatten
    | .alt r1 r2 => matchListF f r1 s ++ matchListF f r2 s
    | .star r1 =>
      (((matchListF f r1 s).filter (fun t => t.length < s.length)).map
        (fun t => matchListF f (.star r1) t)).flatten ++ [s]

/-- All ways `r` can match a prefix of `s`, with adequate fuel: each
recursive call of `matchListF` strictly decreases the measure
`(s.length, r.size)` lexicographically, so `(s.length + 1) * (r.size + 1)`
levels suffice. -/
def matchList (r : Regex) (s : List Char) : List (List Char) :=
  matchListF ((s.length + 1) * (r.size + 1) + 1) r s

/-- Scanner behind `find_iter`/`replace_all`: splits `l` into a leading
unmatched gap and a list of `(match, following gap)` pieces, taking at
every position the engine's first match, skipping one character after an
empty match (the crate's non-overlapping iteration discipline).  Fuel is
structural; `scanFrom` supplies enough. -/
def scanFromF (r : Regex) : Nat → List Char → List Char × List (List Char × List Char)
  | 0, l => (l, [])
  | _ + 1, [] =>
    if (matchList r []).head?.isSome then ([], [([], [])]) else ([], [])
  | f + 1, c :: cs =>
    match (matchList r (c :: cs)).head? with
    | none =>
      let res := scanFromF r f cs
      (c :: res.1, res.2)
    | some rem =>
      let n := (c :: cs).length - rem.length
      if n = 0 then
        let res := scanFromF r f cs
        ([], ([], c :: res.1) :: res.2)
      else
        let res := scanFromF r f ((c :: cs).drop n)
        ([], ((c :: cs).take n, res.1) :: res.2)

/-- Non-overlapping leftmost-first scan of a whole character list. -/
def scanFrom (r : Regex) (l : List Char) : List Char × List (List Char × List Char) :=
  scanFromF r (l.length + 1) l

/-- Word characters for `$name` group references in replacement strings. -/
def isWordChar (c : Char) : Bool :=
  c.isAlphanum || c == '_'

/-- Expansion of a replacement string for one match, with the `regex`
crate's syntax: `$$` is a literal `$`; `$name` (longest word-character
run) and `$\x7bname\x7d` insert the capture named `name`, the whole match for
`0` and the empty string for any group the pattern does not have (the
modelled subset has no capture groups, so only `0` is ever valid); a `$`
not followed by a reference is literal.  Fuel is structural; every step
passes a strictly shorter list, so `length + 1` suffices. -/
def expandF (m : List Char) : Nat → List Char → List Char
  | 0, rest => rest
  | _ + 1, [] => []
  | f + 1, c :: rest =>
    if c = '$' then
      match rest with
      | '$' :: r2 => '$' :: expandF m f r2
      | '{' :: r2 =>
        let nm := r2.takeWhile (fun d => d != '}')
        match r2.dropWhile (fun d => d != '}') with
        | '}' :: r3 => (if nm = ['0'] then m else []) ++ expandF m f r3
        | _ => '$' :: expandF m f rest
      | _ =>
        let nm := rest.takeWhile isWordChar
        if nm = [] then '$' :: expandF m f rest
        else (if nm = ['0'] then m else []) ++ expandF m f (rest.dropWhile isWordChar)
    else c :: expandF m f rest

/-- Expansion of the replacement `rep` for the matched text `m`. -/
def expandRepl (m rep : List Char) : List Char :=
  expandF m (rep.length + 1) rep

/-- All non-overlapping matches of `r` in `s`, in order (`find_iter`
followed by `as_str`). -/
def Regex.findAll (r : Regex) (s : String) : List String :=
  (scanFrom r s.data).2.map (fun q => String.mk q.1)

/-- Replacement of every non-overlapping match of `r` in `s` by the
`$`-expanded replacement `rep` (`Regex::replace_all` with a `&str`
replacer). -/
def Regex.replaceAll (r : Regex) (s rep : String) : String :=
  let res := scanFrom r s.data
  String.mk (res.1 ++ (res.2.map (fun q => expandRepl q.1 rep.data ++ q.2)).flatten)

/-- Items of a character class after `[` (and after the optional `^` and
leading literal `]` were consumed), accumulated until the closing `]`. -/
def parseClassBody : List Char → List (Char × Char) → Except String (List (Char × Char) × List Char)
  | [], _ => .error "unclosed character class"
  | ']' :: rest, acc => .ok (acc.reverse, rest)
  | '\\' :: c :: rest, acc =>
    if c = 'n' then parseClassBody rest (('\n', '\n') :: acc)
    else if c = 't' then parseClassBody rest (('\t', '\t') :: acc)
    else if c = 'r' then parseClassBody rest (('\r', '\r') :: acc)
    else if c.isAlphanum then .error "escape class unsupported in modelled subset"
    else parseClassBody rest ((c, c) :: acc)
  | ['\\'], _ => .error "unclosed character class"
  | c :: '-' :: d :: rest, acc =>
    if d = ']' then .ok (((('-', '-') :: (c, c) :: acc).reverse), rest)
    else if d = '\\' then .error "escaped range endpoint unsupported in modelled subset"
    else if c ≤ d then parseClassBody rest ((c, d) :: acc)
    else .error "invalid character class range"
  | c :: rest, acc => parseClassBody rest ((c, c) :: acc)

/-- Character class, entered after the opening `[`: optional negation
`^`, then a `]` directly after the opening is a literal member, then the
class body up to the closing `]`. -/
def parseClass (s : List Char) : Except String (Regex × List Char) :=
  let negAndRest : Bool × List Char :=
    match s with
    | '^' :: r => (true, r)
    | _ => (false, s)
  let accAndRest : List (Char × Char) × List Char :=
    match negAndRest.2 with
    | ']' :: r => ([(']', ']')], r)
    | _ => ([], negAndRest.2)
  match parseClassBody accAndRest.2 accAndRest.1 with
  | .error e => .error e
  | .ok (items, rest) => .ok (.cls negAndRest.1 items, rest)

/-- Single escaped atom after a `\` outside a class. -/
def parseEscape (c : Char) : Except String Regex :=
  if c = 'n' then .ok (.lit '\n')
  else if c = 't' then .ok (.lit '\t')
  else if c = 'r' then .ok (.lit '\r')
  else if c = 'd' then .ok (.cls false [('0', '9')])
  else if c = 'D' then .ok (.cls true [('0', '9')])
  else if c = 'w' then .ok (.cls false [('a', 'z'), ('A', 'Z'), ('0', '9'), ('_', '_')])
  else if c = 'W' then .ok (.cls true [('a', 'z'), ('A', 'Z'), ('0', '9'), ('_', '_')])
  else if c = 's' then .ok (.cls false [(' ', ' '), ('\t', '\t'), ('\n', '\n'), ('\r', '\r'), ('\x0b', '\x0b'), ('\x0c', '\x0c')])
  else if c = 'S' then .ok (.cls true [(' ', ' '), ('\t', '\t'), ('\n', '\n'), ('\r', '\r'), ('\x0b', '\x0b'), ('\x0c', '\x0c')])
  else if c.isAlphanum then .error "unrecognized escape sequence"
  else .ok (.lit c)

/-- One atom of the pattern grammar: a literal, `.`, a class or an
escape.  Constructs outside the modelled subset are rejected. -/
def parseAtomF : List Char → Except String (Regex × List Char)
  | [] => .error "repetition operator missing expression"
  | '(' :: _ => .error "group syntax unsupported in modelled subset"
  | ')' :: _ => .error "group syntax unsupported in modelled subset"
  | '^' :: _ => .error "anchor syntax unsupported in modelled subset"
  | '$' :: _ => .error "anchor syntax unsupported in modelled subset"
  | '{' :: _ => .error "brace repetition unsupported in modelled subset"
  | '}' :: _ => .error "brace repetition unsupported in modelled subset"
  | '*' :: _ => .error "repetition operator missing expression"
  | '+' :: _ => .error "repetition operator missing expression"
  | '?' :: _ => .error "repetition operator missing expression"
  | '.' :: rest => .ok (.anyC, rest)
  | '[' :: rest => parseClass rest
  | ['\\'] => .error "incomplete escape sequence"
  | '\\' :: c :: rest =>
    match parseEscape c with
    | .error e => .error e
    | .ok r => .ok (r, rest)
  | c :: rest => .ok (.lit c, rest)

/-- Postfix quantifier applied to an atom; `+` and `?` desugar to `cat`
with `star` and to `alt` with the empty regex. -/
def parseQuant (r : Regex) : List Char → Regex × List Char
  | '*' :: rest => (.star r, rest)
  | '+' :: rest => (.cat r (.star r), rest)
  | '?' :: rest => (.alt r .emptyR, rest)
  | rest => (r, rest)

/-- Concatenation with a flattened empty left unit, so parsed syntax
trees stay small. -/
def catR : Regex → Regex → Regex
  | .emptyR, r => r
  | a, b => .cat a b

mutual

/-- Alternation level of the pattern grammar (fuel-based descent). -/
def parseAltF : Nat → List Char → Except String (Regex × List Char)
  | 0, _ => .error "pattern too deep for modelled parser"
  | f + 1, s =>
    match parseSeqF f s .emptyR with
    | .error e => .error e
    | .ok (r1, rest) =>
      match rest with
      | '|' :: rest2 =>
        match parseAltF f rest2 with
        | .error e => .error e
        | .ok (r2, rest3) => .ok (.alt r1 r2, rest3)
      | _ => .ok (r1, rest)

/-- Concatenation level of the pattern grammar: atoms with their
quantifiers, accumulated until `|` or the end of the input. -/
def parseSeqF : Nat → List Char → Regex → Except String (Regex × List Char)
  | 0, _, _ => .error "pattern too deep for modelled parser"
  | f + 1, s, acc =>
    match s with
    | [] => .ok (acc, [])
    | '|' :: _ => .ok (acc, s)
    | _ =>
      match parseAtomF s with
      | .error e => .error e
      | .ok (r, rest) =>
        let q := parseQuant r rest
        parseSeqF f q.2 (catR acc q.1)

end

/-- Compilation of a pattern string: `regex::Regex::new` restricted to
the modelled subset.  Diagnostic messages are modelled, not the crate's
exact renderings. -/
def Regex.new (p : String) : Except String Regex :=
  match parseAltF (4 * p.length + 16) p.data with
  | .error e => .error e
  | .ok (r, []) => .ok r
  | .ok (_, _ :: _) => .error "unexpected trailing input"

/-- Editing mode of the session (`InputMode` in `src/main.rs`); `Normal`
is the spec's `Browsing`. -/
inductive InputMode where
  | Normal
  | EditingSource
  | EditingRegex
  | EditingReplace
deriving Repr, DecidableEq

/-- Editor state (`struct App` in `src/main.rs`). -/
structure App where
  source_text : String
  regex_input : String
  replace_input : String
  output_text : String
  input_mode : InputMode
  status_message : String
deriving Repr, DecidableEq

/-- Initial state (`impl Default for App`). -/
def App.default : App :=
  { source_text := "Praliné saber no ocupa el lugar de argentino."
    regex_input := ""
    replace_input := ""
    output_text := ""
    input_mode := InputMode.Normal
    status_message := "Listo. 's': Fuente, 'r': Regex, 't': Reemplazar, 'TAB': IA" }

/-- Transform engine as a pure function of the three buffers: the body of
`App::apply_transform`.  Empty pattern: the source verbatim.  Compile
failure: the diagnostic behind `"Regex Error: "`.  Empty replacement:
every non-overlapping match of the whole source joined with `" | "`, or
the sentinel when there is none.  Otherwise: `replace_all` of the whole
source. -/
def transformOf (source pat repl : String) : String :=
  if pat = "" then source
  else
    match Regex.new pat with
    | .error e => "Regex Error: " ++ e
    | .ok re =>
      if repl = "" then
        let ms := re.findAll source
        if ms = [] then "(No hay coincidencias)"
        else " | ".intercalate ms
      else re.replaceAll source repl

/-- `App::apply_transform`: recompute the output field from the current
buffers; no other field is touched. -/
def applyTransform (a : App) : App :=
  { a with output_text := transformOf a.source_text a.regex_input a.replace_input }

/-- Outcome of the external suggestion command (`Command::output()` in
`App::suggest_ai`): either the spawn failed, or the process completed
with an exit status, stdout and stderr. -/
inductive ProviderResult where
  | execError (msg : String)
  | completed (success : Bool) (out errOut : String)
deriving Repr, DecidableEq

/-- Characters removed by Rust's `str::trim` (ASCII whitespace; the
model restricts Rust's Unicode whitespace set to the characters the
repository's data can contain). -/
def trimChars (l : List Char) : List Char :=
  ((l.dropWhile Char.isWhitespace).reverse.dropWhile Char.isWhitespace).reverse

/-- Model of Rust's `str::trim`. -/
def strTrim (s : String) : String :=
  String.mk (trimChars s.data)

/-- Model of Rust's `str::replace`: all non-overlapping occurrences of
`pat`, scanned left to right (fuel is structural, `length + 1`
suffices because `pat` is non-empty at every call site). -/
def replaceList (pat rep : List Char) : Nat → List Char → List Char
  | 0, l => l
  | _ + 1, [] => []
  | f + 1, c :: cs =>
    if pat.isPrefixOf (c :: cs) then rep ++ replaceList pat rep f ((c :: cs).drop pat.length)
    else c :: replaceList pat rep f cs

/-- Model of Rust's `str::replace` on strings. -/
def strReplace (s pat rep : String) : String :=
  if pat.data = [] then s
  else String.mk (replaceList pat.data rep.data (s.data.length + 1) s.data)

/-- First `n` characters of a string (Rust `chars().take(n).collect()`). -/
def strTake (s : String) (n : Nat) : String :=
  String.mk (s.data.take n)

/-- Markdown stripping applied to a non-empty suggestion in
`App::suggest_ai`. -/
def cleanSuggestion (s : String) : String :=
  strTrim (strReplace (strReplace (strReplace s "```regex" "") "```" "") "`" "")

/-- `App::suggest_ai`, with the external command's outcome made an
explicit argument (the prompt the program builds does not influence the
state transition and is not modelled).  On success with a non-empty
trimmed response the cleaned suggestion becomes the pattern and the
transform engine runs; on every failure only the status line changes. -/
def suggestAI (pr : ProviderResult) (a : App) : App :=
  let a1 := { a with status_message := "Consultando a Gemini IA..." }
  match pr with
  | .completed true out _ =>
    let suggestion := strTrim out
    if suggestion = "" then
      { a1 with status_message := "Gemini devolvió vacío." }
    else
      applyTransform
        { a1 with regex_input := cleanSuggestion suggestion,
                  status_message := "Sugerencia aplicada!" }
  | .execError e =>
    { a1 with status_message := "Error de ejecución: " ++ e }
  | .completed false _ errOut =>
    { a1 with status_message := "Gemini Error: " ++ strTake errOut 30 }

/-- Whether `App::suggest_ai` itself invokes the transform engine for
this provider outcome (it does exactly on success with a non-empty
trimmed response). -/
def suggestAIInvokes : ProviderResult → Bool
  | .completed true out _ => !(strTrim out == "")
  | _ => false

/-- Whether the provider outcome is a failure in the sense of the spec:
spawn error, non-zero exit, or empty (trimmed) response. -/
def providerFails : ProviderResult → Bool
  | .execError _ => true
  | .completed true out _ => strTrim out == ""
  | .completed false _ _ => true

/-- Key events reaching the state machine (press events only; the
`KeyEventKind::Press` filter of `run_app` is upstream of this model). -/
inductive KeyCode where
  | charK (c : Char)
  | esc
  | enter
  | backspace
  | tabK
  | otherKey
deriving Repr, DecidableEq

/-- Rust `String::pop`: drop the last character, no-op on empty. -/
def strPop (s : String) : String :=
  String.mk s.data.dropLast

/-- One iteration of the event-handling part of `run_app` on a processed
key event, together with the number of times the transform engine runs
during it.  `none` is the `'q'` quit path.  Every other path ends with
the `app.apply_transform()` at the bottom of the loop; the Tab path may
run the engine once more inside `suggest_ai`. -/
def stepCount (pr : ProviderResult) (a : App) (k : KeyCode) : Option (App × Nat) :=
  match a.input_mode with
  | .Normal =>
    match k with
    | .charK c =>
      if c = 'q' then none
      else if c = 's' then
        some (applyTransform { a with input_mode := .EditingSource, source_text := "" }, 1)
      else if c = 'r' then
        some (applyTransform { a with input_mode := .EditingRegex, regex_input := "" }, 1)
      else if c = 't' then
        some (applyTransform { a with input_mode := .EditingReplace, replace_input := "" }, 1)
      else some (applyTransform a, 1)
    | .tabK =>
      some (applyTransform (suggestAI pr a), if suggestAIInvokes pr then 2 else 1)
    | _ => some (applyTransform a, 1)
  | .EditingSource =>
    match k with
    | .esc => some (applyTransform { a with input_mode := .Normal }, 1)
    | .charK c => some (applyTransform { a with source_text := a.source_text.push c }, 1)
    | .backspace => some (applyTransform { a with source_text := strPop a.source_text }, 1)
    | .enter => some (applyTransform { a with source_text := a.source_text.push '\n' }, 1)
    | _ => some (applyTransform a, 1)
  | .EditingRegex =>
    match k with
    | .esc => some (applyTransform { a with input_mode := .Normal }, 1)
    | .charK c => some (applyTransform { a with regex_input := a.regex_input.push c }, 1)
    | .backspace => some (applyTransform { a with regex_input := strPop a.regex_input }, 1)
    | .enter => some (applyTransform { a with input_mode := .Normal }, 1)
    | _ => some (applyTransform a, 1)
  | .EditingReplace =>
    match k with
    | .esc => some (applyTransform { a with input_mode := .Normal }, 1)
    | .charK c => some (applyTransform { a with replace_input := a.replace_input.push c }, 1)
    | .backspace => some (applyTransform { a with replace_input := strPop a.replace_input }, 1)
    | .enter => some (applyTransform { a with input_mode := .Normal }, 1)
    | _ => some (applyTransform a, 1)

/-- State transition of one processed key event (`none` = quit). -/
def step (pr : ProviderResult) (a : App) (k : KeyCode) : Option App :=
  (stepCount pr a k).map (fun q => q.1)

/-- Sequential processing of a list of key events. -/
def runSeq (pr : ProviderResult) : App → List KeyCode → Option App
  | a, [] => some a
  | a, k :: ks =>
    match step pr a k with
    | none => none
    | some a2 => runSeq pr a2 ks

@[simp] lemma applyTransform_source (a : App) :
    (applyTransform a).source_text = a.source_text := rfl

@[simp] lemma applyTransform_regex (a : App) :
    (applyTransform a).regex_input = a.regex_input := rfl

@[simp] lemma applyTransform_replace (a : App) :
    (applyTransform a).replace_input = a.replace_input := rfl

@[simp] lemma applyTransform_mode (a : App) :
    (applyTransform a).input_mode = a.input_mode := rfl

@[simp] lemma applyTransform_status (a : App) :
    (applyTransform a).status_message = a.status_message := rfl

@[simp] lemma applyTransform_output (a : App) :
    (applyTransform a).output_text
      = transformOf a.source_text a.regex_input a.replace_input := rfl

/-- Unfolding of the transform engine when the pattern compiles and the
replacement buffer is empty: extraction of all matches. -/
lemma transformOf_extraction (s p : String) (re : Regex)
    (hp : p ≠ "") (hc : Regex.new p = .ok re) :
    transformOf s p ""
      = (if re.findAll s = [] then "(No hay coincidencias)"
         else " | ".intercalate (re.findAll s)) := by
  simp [transformOf, if_neg hp, hc]

/-- Unfolding of the transform engine when the pattern compiles and the
replacement buffer is non-empty: substitution over the whole source. -/
lemma transformOf_substitution (s p r : String) (re : Regex)
    (hp : p ≠ "") (hr : r ≠ "") (hc : Regex.new p = .ok re) :
    transformOf s p r = re.replaceAll s r := by
  simp only [transformOf, if_neg hp, hc, if_neg hr]

/-- The scanner decomposes its input: the leading gap, the matches and
the gaps after them concatenate back to the scanned list, for any fuel.
Hence the reported matches are non-overlapping in-order substrings of the
whole input. -/
lemma scanFromF_reconstruct (r : Regex) (f : Nat) (l : List Char) :
    (scanFromF r f l).1
        ++ ((scanFromF r f l).2.map (fun q => q.1 ++ q.2)).flatten = l := by
  induction f generalizing l with
  | zero => simp [scanFromF]
  | succ f ih =>
    cases l with
    | nil =>
      simp only [scanFromF]
      split <;> simp
    | cons c cs =>
      simp only [scanFromF]
      cases hm : (matchList r (c :: cs)).head? with
      | none => simpa using congrArg (c :: ·) (ih cs)
      | some rem =>
        simp only []
        split
        · simpa using congrArg (c :: ·) (ih cs)
        · simp only [List.map_cons, List.flatten_cons, List.nil_append, List.append_assoc]
          rw [ih ((c :: cs).drop ((c :: cs).length - rem.length))]
          exact List.take_append_drop _ _

/-- Scanner decomposition at the fuel used by `scanFrom`. -/
lemma scanFrom_reconstruct (r : Regex) (l : List Char) :
    (scanFrom r l).1 ++ ((scanFrom r l).2.map (fun q => q.1 ++ q.2)).flatten = l :=
  scanFromF_reconstruct r (l.length + 1) l

/-- With no match anywhere, the whole input is the leading gap. -/
lemma scanFrom_no_match (r : Regex) (l : List Char)
    (h : (scanFrom r l).2 = []) : (scanFrom r l).1 = l := by
  have := scanFrom_reconstruct r l
  rwa [h, List.map_nil, List.flatten_nil, List.append_nil] at this

/-- C1: for every source text and every replacement text, an empty
pattern buffer makes the transform engine return the source verbatim
(identity law), both as the pure engine and on the editor state. -/
theorem transform_identity_on_empty_pattern :
    (∀ source repl : String, transformOf source "" repl = source) ∧
    (∀ a : App, a.regex_input = ""
        → (applyTransform a).output_text = a.source_text) := by
  constructor
  · intro source repl
    simp [transformOf]
  · intro a h
    simp [applyTransform_output, h, transformOf]

theorem transform_identity_on_empty_pattern_witness :
    App.default.regex_input = ""
      ∧ (applyTransform App.default).output_text = App.default.source_text :=
  ⟨rfl, transform_identity_on_empty_pattern.2 App.default rfl⟩

/-- C2: for every non-empty pattern the modelled compiler rejects, the
transform engine returns exactly the diagnostic behind `"Regex Error: "`
and performs no matching or substitution, for every source and
replacement. -/
theorem transform_regex_error_on_invalid (s p r e : String)
    (hp : p ≠ "") (hc : Regex.new p = .error e) :
    transformOf s p r = "Regex Error: " ++ e := by
  simp only [transformOf, if_neg hp, hc]

theorem transform_regex_error_on_invalid_witness :
    ("[" ≠ "")
      ∧ transformOf "abc" "[" "x" = "Regex Error: unclosed character class" :=
  ⟨by decide,
    transform_regex_error_on_invalid "abc" "[" "x" "unclosed character class"
      (by decide) (by rfl)⟩

/-- C10: the transform engine mutates only the output field: source,
pattern, replacement, mode and status are unchanged by
`App::apply_transform`. -/
theorem apply_transform_only_output (a : App) :
    (applyTransform a).source_text = a.source_text
      ∧ (applyTransform a).regex_input = a.regex_input
      ∧ (applyTransform a).replace_input = a.replace_input
      ∧ (applyTransform a).input_mode = a.input_mode
      ∧ (applyTransform a).status_message = a.status_message :=
  ⟨rfl, rfl, rfl, rfl, rfl⟩

/-- C3: for every source and every compiling non-empty pattern, with an
empty replacement buffer the engine joins all non-overlapping matches of
the whole source with `" | "` and falls back to the sentinel
`"(No hay coincidencias)"` when there are none; the matches are in-order
non-overlapping substrings of the whole source (not per line), and the
`"cat bat hat"` / `"[cb]at"` scenario yields `"cat | bat"`. -/
theorem extraction_joins_all_matches :
    (∀ (s p : String) (re : Regex), p ≠ "" → Regex.new p = .ok re →
      transformOf s p ""
        = (if re.findAll s = [] then "(No hay coincidencias)"
           else " | ".intercalate (re.findAll s)))
    ∧ (∀ (re : Regex) (l : List Char),
        (scanFrom re l).1
            ++ ((scanFrom re l).2.map (fun q => q.1 ++ q.2)).flatten = l)
    ∧ transformOf "cat bat hat" "[cb]at" "" = "cat | bat" :=
  ⟨transformOf_extraction, scanFrom_reconstruct, by decide⟩

theorem extraction_joins_all_matches_witness :
    ("[cb]at" ≠ "")
      ∧ transformOf "cat bat hat" "[cb]at" ""
        = (if (Regex.cat (Regex.cat (Regex.cls false [('c', 'c'), ('b', 'b')])
                (Regex.lit 'a')) (Regex.lit 't')).findAll "cat bat hat" = []
           then "(No hay coincidencias)"
           else " | ".intercalate
             ((Regex.cat (Regex.cat (Regex.cls false [('c', 'c'), ('b', 'b')])
                (Regex.lit 'a')) (Regex.lit 't')).findAll "cat bat hat")) :=
  ⟨by decide,
    extraction_joins_all_matches.1 "cat bat hat" "[cb]at"
      (Regex.cat (Regex.cat (Regex.cls false [('c', 'c'), ('b', 'b')])
        (Regex.lit 'a')) (Regex.lit 't')) (by decide) (by rfl)⟩

/-- C9: in substitution mode (non-empty replacement), a source with zero
matches of the pattern comes back unchanged. -/
theorem substitution_identity_without_matches (s p r : String) (re : Regex)
    (hp : p ≠ "") (hr : r ≠ "") (hc : Regex.new p = .ok re)
    (hm : re.findAll s = []) : transformOf s p r = s := by
  rw [transformOf_substitution s p r re hp hr hc]
  have h2 : (scanFrom re s.data).2 = [] := by
    simpa [Regex.findAll, List.map_eq_nil_iff] using hm
  have h1 := scanFrom_no_match re s.data h2
  simp only [Regex.replaceAll, h2, h1, List.map_nil, List.flatten_nil,
    List.append_nil]

theorem substitution_identity_without_matches_witness :
    ("zz" ≠ "") ∧ ("Q" ≠ "")
      ∧ (Regex.cat (Regex.lit 'z') (Regex.lit 'z')).findAll "hat" = []
      ∧ transformOf "hat" "zz" "Q" = "hat" :=
  ⟨by decide, by decide, by decide,
    substitution_identity_without_matches "hat" "zz" "Q"
      (Regex.cat (Regex.lit 'z') (Regex.lit 'z'))
      (by decide) (by decide) (by rfl) (by decide)⟩

/-- Replacement expansion is the identity on `$`-free replacement
strings, for any fuel above the length. -/
lemma expandF_no_dollar (m : List Char) (f : Nat) (l : List Char)
    (hf : l.length < f) (h : ∀ c ∈ l, c ≠ '$') : expandF m f l = l := by
  induction f generalizing l with
  | zero => omega
  | succ f ih =>
    cases l with
    | nil => simp [expandF]
    | cons c rest =>
      have hc : c ≠ '$' := h c (by simp)
      simp only [expandF, if_neg hc]
      rw [ih rest (by simpa using Nat.lt_of_succ_lt_succ hf)
        (fun d hd => h d (by simp [hd]))]

/-- Replacement expansion at the fuel used by `expandRepl`. -/
lemma expandRepl_no_dollar (m l : List Char) (h : ∀ c ∈ l, c ≠ '$') :
    expandRepl m l = l :=
  expandF_no_dollar m (l.length + 1) l (Nat.lt_succ_self _) h

/-- On a `$`-free replacement string, `replace_all` splices the literal
replacement between the unmatched gaps. -/
lemma replaceAll_no_dollar (re : Regex) (s r : String)
    (h : ∀ c ∈ r.data, c ≠ '$') :
    re.replaceAll s r
      = String.mk ((scanFrom re s.data).1
          ++ ((scanFrom re s.data).2.map (fun q => r.data ++ q.2)).flatten) := by
  simp only [Regex.replaceAll]
  have hmap : (scanFrom re s.data).2.map (fun q => expandRepl q.1 r.data ++ q.2)
      = (scanFrom re s.data).2.map (fun q => r.data ++ q.2) :=
    List.map_congr_left (fun q _ => by rw [expandRepl_no_dollar q.1 r.data h])
  rw [hmap]

/-- C4 counterexample: with source `"cat"`, pattern `"at"` and
replacement `"$$"`, the engine's output is `"c$"` (the crate expands
`$$` to a literal `$`), not the claim's `"c$$"` obtained by inserting the
replacement text itself. -/
theorem substitution_literal_replacement_false :
    transformOf "cat" "at" "$$" = "c$"
      ∧ transformOf "cat" "at" "$$" ≠ "c$$" := by
  constructor
  · decide
  · decide

/-- C4 (amended): for every source, every compiling non-empty pattern
and every non-empty replacement, the engine sets the output to
`replace_all` of the whole source, which expands `$`-group syntax in the
replacement; in particular a replacement containing no `$` replaces
every non-overlapping match verbatim while preserving the surrounding
unmatched text, and the `"cat bat hat"` / `"at"` / `"XX"` scenario
yields `"cXX bXX hXX"`. -/
theorem substitution_replaces_all_matches :
    (∀ (s p r : String) (re : Regex), p ≠ "" → r ≠ "" → Regex.new p = .ok re →
      transformOf s p r = re.replaceAll s r)
    ∧ (∀ (s r : String) (re : Regex), (∀ c ∈ r.data, c ≠ '$') →
        re.replaceAll s r
          = String.mk ((scanFrom re s.data).1
              ++ ((scanFrom re s.data).2.map (fun q => r.data ++ q.2)).flatten))
    ∧ transformOf "cat bat hat" "at" "XX" = "cXX bXX hXX" :=
  ⟨fun s p r re hp hr hc => transformOf_substitution s p r re hp hr hc,
    fun s r re h => replaceAll_no_dollar re s r h,
    by decide⟩

theorem substitution_replaces_all_matches_witness :
    transformOf "cat bat hat" "at" "XX"
        = (Regex.cat (Regex.lit 'a') (Regex.lit 't')).replaceAll "cat bat hat" "XX"
      ∧ (Regex.cat (Regex.lit 'a') (Regex.lit 't')).replaceAll "cat bat hat" "XX"
        = String.mk ((scanFrom (Regex.cat (Regex.lit 'a') (Regex.lit 't')) "cat bat hat".data).1
            ++ ((scanFrom (Regex.cat (Regex.lit 'a') (Regex.lit 't')) "cat bat hat".data).2.map
              (fun q => "XX".data ++ q.2)).flatten) :=
  ⟨substitution_replaces_all_matches.1 "cat bat hat" "at" "XX"
      (Regex.cat (Regex.lit 'a') (Regex.lit 't')) (by decide) (by decide) (by rfl),
    substitution_replaces_all_matches.2.1 "cat bat hat" "XX"
      (Regex.cat (Regex.lit 'a') (Regex.lit 't')) (by decide)⟩

/-- C5 counterexample: in no-replacement mode on source
`"line1\nfoo\nline3"` with pattern `"foo"` the engine outputs `"foo"`
(the joined matches), not the line-filter output `"foo\n"` the claim
predicts. -/
theorem line_filter_semantics_false :
    transformOf "line1\nfoo\nline3" "foo" "" = "foo"
      ∧ transformOf "line1\nfoo\nline3" "foo" "" ≠ "foo\n" := by
  constructor
  · decide
  · decide

/-- C5 (amended): the no-replacement mode does not filter lines; it
applies match-extraction semantics over the whole source: all
non-overlapping matches joined with `" | "`, the sentinel when there are
none, and the `"line1\nfoo\nline3"` / `"foo"` scenario yields `"foo"`
(no trailing newline, non-matching lines dropped together with all other
unmatched text). -/
theorem no_replacement_is_extraction :
    (∀ (s p : String) (re : Regex), p ≠ "" → Regex.new p = .ok re →
      transformOf s p ""
        = (if re.findAll s = [] then "(No hay coincidencias)"
           else " | ".intercalate (re.findAll s)))
    ∧ transformOf "line1\nfoo\nline3" "foo" "" = "foo" :=
  ⟨fun s p re hp hc => transformOf_extraction s p re hp hc, by decide⟩

theorem no_replacement_is_extraction_witness :
    ("foo" ≠ "")
      ∧ transformOf "line1\nfoo\nline3" "foo" ""
        = (if (Regex.cat (Regex.cat (Regex.lit 'f') (Regex.lit 'o'))
                (Regex.lit 'o')).findAll "line1\nfoo\nline3" = []
           then "(No hay coincidencias)"
           else " | ".intercalate
             ((Regex.cat (Regex.cat (Regex.lit 'f') (Regex.lit 'o'))
                (Regex.lit 'o')).findAll "line1\nfoo\nline3")) :=
  ⟨by decide,
    no_replacement_is_extraction.1 "line1\nfoo\nline3" "foo"
      (Regex.cat (Regex.cat (Regex.lit 'f') (Regex.lit 'o')) (Regex.lit 'o'))
      (by decide) (by rfl)⟩

/-- C8: on every failing provider outcome (spawn error, non-zero exit,
or empty trimmed response) `App::suggest_ai` leaves the pattern buffer,
the output and every other buffer and the mode unchanged; only the
status line is updated (and the function is total, so the failure never
escapes as a process-level error). -/
theorem provider_failure_frame (pr : ProviderResult) (a : App)
    (h : providerFails pr = true) :
    (suggestAI pr a).regex_input = a.regex_input
      ∧ (suggestAI pr a).output_text = a.output_text
      ∧ (suggestAI pr a).source_text = a.source_text
      ∧ (suggestAI pr a).replace_input = a.replace_input
      ∧ (suggestAI pr a).input_mode = a.input_mode := by
  cases pr with
  | execError e => simp [suggestAI]
  | completed succ out errOut =>
    cases succ with
    | false => simp [suggestAI]
    | true =>
      have hempty : strTrim out = "" := by simpa [providerFails] using h
      simp [suggestAI, hempty]

theorem provider_failure_frame_witness :
    providerFails (.execError "program not found") = true
      ∧ (suggestAI (.execError "program not found") App.default).regex_input
          = App.default.regex_input
      ∧ (suggestAI (.execError "program not found") App.default).output_text
          = App.default.output_text
      ∧ (suggestAI (.execError "program not found") App.default).source_text
          = App.default.source_text
      ∧ (suggestAI (.execError "program not found") App.default).replace_input
          = App.default.replace_input
      ∧ (suggestAI (.execError "program not found") App.default).input_mode
          = App.default.input_mode :=
  ⟨by decide, provider_failure_frame (.execError "program not found") App.default (by decide)⟩

/-- C6: from `Browsing` (`Normal`) mode, pressing `'s'`, typing
`"abc"`, then `Escape` leaves the source buffer exactly `"abc"` and the
mode `Browsing`, for every prior source value (which is fully
discarded); and entering any editing mode clears the corresponding
buffer before any character is appended (`'s'`/`'r'`/`'t'` clear source,
pattern and replacement respectively). -/
theorem entering_edit_clears_then_types (pr : ProviderResult) (a : App)
    (h : a.input_mode = InputMode.Normal) :
    (∃ a2, runSeq pr a [.charK 's', .charK 'a', .charK 'b', .charK 'c', .esc]
          = some a2
        ∧ a2.source_text = "abc" ∧ a2.input_mode = InputMode.Normal
        ∧ a2.regex_input = a.regex_input ∧ a2.replace_input = a.replace_input)
    ∧ (∃ b, step pr a (.charK 's') = some b
        ∧ b.source_text = "" ∧ b.input_mode = InputMode.EditingSource)
    ∧ (∃ b, step pr a (.charK 'r') = some b
        ∧ b.regex_input = "" ∧ b.input_mode = InputMode.EditingRegex)
    ∧ (∃ b, step pr a (.charK 't') = some b
        ∧ b.replace_input = "" ∧ b.input_mode = InputMode.EditingReplace) := by
  obtain ⟨s0, r0, p0, o0, m0, st0⟩ := a
  change m0 = InputMode.Normal at h
  subst h
  refine ⟨⟨⟨"abc", r0, p0, transformOf "abc" r0 p0, InputMode.Normal, st0⟩,
      rfl, rfl, rfl, rfl, rfl⟩, ⟨_, rfl, rfl, rfl⟩,
    ⟨_, rfl, rfl, rfl⟩, ⟨_, rfl, rfl, rfl⟩⟩

theorem entering_edit_clears_then_types_witness :
    App.default.input_mode = InputMode.Normal
      ∧ ((∃ a2, runSeq (.execError "") App.default
              [.charK 's', .charK 'a', .charK 'b', .charK 'c', .esc] = some a2
            ∧ a2.source_text = "abc" ∧ a2.input_mode = InputMode.Normal
            ∧ a2.regex_input = App.default.regex_input
            ∧ a2.replace_input = App.default.replace_input)
        ∧ (∃ b, step (.execError "") App.default (.charK 's') = some b
            ∧ b.source_text = "" ∧ b.input_mode = InputMode.EditingSource)
        ∧ (∃ b, step (.execError "") App.default (.charK 'r') = some b
            ∧ b.regex_input = "" ∧ b.input_mode = InputMode.EditingRegex)
        ∧ (∃ b, step (.execError "") App.default (.charK 't') = some b
            ∧ b.replace_input = "" ∧ b.input_mode = InputMode.EditingReplace)) :=
  ⟨rfl, entering_edit_clears_then_types (.execError "") App.default rfl⟩

/-- C7 counterexample: in `Browsing` mode with a successful non-empty
suggestion, the Tab event runs the transform engine twice (once inside
`App::suggest_ai`, once at the bottom of the event loop), not exactly
once. -/
theorem transform_invoked_twice_on_tab :
    (stepCount (.completed true "x" "")
          { source_text := "ab", regex_input := "", replace_input := "",
            output_text := "ab", input_mode := .Normal, status_message := "" }
          .tabK).map (fun q => q.2) = some 2
      ∧ (2 : Nat) ≠ 1 := by
  constructor
  · decide
  · decide

/-- C7 (amended): every processed key event other than quit runs the
transform engine at least once — exactly once except for a Tab whose
suggestion succeeds, which runs it twice — and always after the buffer
mutations, so the state handed back to rendering satisfies
`output = transform(source, pattern, replacement)`: the rendered output
is never stale. -/
theorem output_fresh_after_event (pr : ProviderResult) (a a2 : App)
    (k : KeyCode) (n : Nat) (h : stepCount pr a k = some (a2, n)) :
    1 ≤ n
      ∧ a2.output_text
          = transformOf a2.source_text a2.regex_input a2.replace_input := by
  have key : ∀ (x : App) (m : Nat),
      some (applyTransform x, m) = some (a2, n) → 1 ≤ m →
      1 ≤ n ∧ a2.output_text
          = transformOf a2.source_text a2.regex_input a2.replace_input := by
    intro x m hx hm
    injection hx with hx2
    injection hx2 with hA hN
    subst hA
    subst hN
    exact ⟨hm, by simp⟩
  cases hm : a.input_mode <;> cases k <;> simp only [stepCount, hm] at h <;>
    first
      | exact key _ _ h (le_refl 1)
      | exact key _ _ h (by split <;> omega)
      | (split_ifs at h <;>
          first
            | exact Option.noConfusion h
            | exact key _ _ h (le_refl 1))

theorem output_fresh_after_event_witness :
    1 ≤ 1
      ∧ (applyTransform App.default).output_text
          = transformOf (applyTransform App.default).source_text
              (applyTransform App.default).regex_input
              (applyTransform App.default).replace_input :=
  output_fresh_after_event (.execError "") App.default
    (applyTransform App.default) .otherKey 1 (by rfl)
